import Mathlib

/-!
# Verification of the in-memory inventory store (`src/main.rs`)

Shallow embedding of the Rust CLI inventory program. The store is a
`HashMap<Uuid, Product>`; we model it as a list of products keyed by their
`id` field, in insertion order (the spec allows any implementation-defined
iteration order; `HashMap::insert` replaces an existing key and otherwise
adds the entry, which `insertProduct` mirrors). Machine types are embedded
as follows: `Uuid` becomes `Nat` (an opaque token, only compared for
equality), `f32` prices become `ℚ` (prices are only stored and copied,
never computed with), `u16` stock becomes `Nat`, and `OffsetDateTime`
becomes a `Nat` timestamp. `Uuid::new_v4()` and
`OffsetDateTime::now_local().unwrap()` are the injected id-generator and
clock capabilities (spec §2, §9): each store operation that calls them
takes the supplied value as an extra argument.

Every `Inventory` method in the Rust source returns `()`; everything the
caller observes is what the method prints. We therefore model each
operation's observable result as the list of printed lines, one `Out`
constructor per `println!` call in the source (formatting such as the
8-character uuid abbreviation is display glue; `Out.productLine` records
the counter and the product whose fields are printed).
-/

set_option autoImplicit false

namespace Inv

/-- The `Brand` enum from `main.rs`: a closed set of three manufacturer tags. -/
inductive Brand where
  | Apple
  | Google
  | Samsung
deriving DecidableEq, Repr

/-- The `Product` struct from `main.rs`. -/
structure Product where
  id : Nat
  name : String
  brand : Brand
  price : ℚ
  stock : Nat
  updated_at : Nat
deriving DecidableEq, Repr

/-- The `ProductDto` struct from `main.rs`: replacement field values for `update`. -/
structure ProductDto where
  name : String
  brand : Brand
  price : ℚ
  stock : Nat
deriving DecidableEq, Repr

/-- The `Inventory` struct: the `HashMap<Uuid, Product>` modelled as a list of
products in insertion order, keyed by their `id` field. -/
structure Inventory where
  products : List Product
deriving DecidableEq, Repr

/-- The keys of the store: the ids of the stored products. -/
def Inventory.ids (inv : Inventory) : List Nat :=
  inv.products.map Product.id

/-- One printed line. Each constructor corresponds to one `println!` in an
`Inventory` method of `main.rs`. -/
inductive Out where
  /-- `"No products"` (printed by `see_all` and `search_by_name` on an empty store). -/
  | noProducts
  /-- One line of the `see_all` listing: the 1-based counter and the product
  whose id (abbreviated in the actual display), name, brand, price, stock and
  timestamp are printed. -/
  | productLine (counter : Nat) (p : Product)
  /-- `"ID: {}. Name: {} - Brand: {:?}."` printed by `search_by_name` on a match. -/
  | foundLine (id : Nat) (name : String) (brand : Brand)
  /-- `"'{}' not found."` printed by `search_by_name` when no name matches. -/
  | notFoundLine (query : String)
  /-- `"Product with ID {} deleted."` printed by `delete` on success. -/
  | deletedLine (id : Nat)
  /-- `"Product not found."` printed by `delete` when the id is absent. -/
  | productNotFoundLine
deriving DecidableEq, Repr

/-- The product (if any) displayed by an output line. -/
def Out.shown : Out → Option Product
  | Out.productLine _ p => some p
  | _ => none

/-- `b` is a prefix of `l` (char-by-char comparison), as in `str::starts_with`. -/
def chPrefix : List Char → List Char → Bool
  | [], _ => true
  | _ :: _, [] => false
  | a :: as, b :: bs => a = b && chPrefix as bs

/-- `needle` occurs as a contiguous substring of the second list, as in Rust
`str::contains`: some suffix of the haystack starts with `needle` (the empty
needle is contained in everything). -/
def chContains (needle : List Char) : List Char → Bool
  | [] => needle.isEmpty
  | c :: rest => chPrefix needle (c :: rest) || chContains needle rest

/-- `hay.to_lowercase().contains(&needle.to_lowercase())` from
`search_by_name` (line 178 of `main.rs`): lowercase both strings, then test
substring containment. -/
def strContains (hay needle : String) : Bool :=
  chContains (needle.toList.map Char.toLower) (hay.toList.map Char.toLower)

/-- `HashMap::insert` on the list model: replace the entry with the same key
if one exists, otherwise add the new entry (at the end, fixing insertion
order as the iteration order). -/
def insertProduct : List Product → Product → List Product
  | [], p => [p]
  | q :: rest, p => if q.id = p.id then p :: rest else q :: insertProduct rest p

/-- `Inventory::new` (lines 137-141): the empty store. -/
def Inventory.new : Inventory :=
  { products := [] }

/-- The body of the `see_all` printing loop (lines 154-169): one
`productLine` per product, with the counter incremented before each print
(so the first line carries counter 1). -/
def seeAllLines : Nat → List Product → List Out
  | _, [] => []
  | counter, p :: rest => Out.productLine (counter + 1) p :: seeAllLines (counter + 1) rest

/-- `Inventory::see_all` (lines 147-170): on an empty store print
`"No products"` and return; otherwise print one numbered line per product in
iteration order. The method takes `&self` and returns `()`: its observable
result is the printed lines only and the store is not touched. -/
def Inventory.see_all (inv : Inventory) : List Out :=
  if inv.products.isEmpty then [Out.noProducts]
  else seeAllLines 0 inv.products

/-- `Inventory::search_by_name` (lines 172-187): on an empty store print
`"No products"`; otherwise print the first product (in iteration order) whose
lowercased name contains the lowercased query, or `"'{}' not found."` if none
does. Exactly one line is printed on every path. -/
def Inventory.search_by_name (inv : Inventory) (query : String) : Out :=
  if inv.products.isEmpty then Out.noProducts
  else
    match inv.products.find? (fun item => strContains item.name query) with
    | some item => Out.foundLine item.id item.name item.brand
    | none => Out.notFoundLine query

/-- `Inventory::create` (lines 193-204): build a `Product` from the supplied
field values, the id from `Uuid::new_v4()` (`freshId`) and the timestamp from
`OffsetDateTime::now_local().unwrap()` (`now`), and insert it into the map.
The method prints nothing and returns `()`: the second component (the
printed lines) is empty. -/
def Inventory.create (inv : Inventory) (name : String) (brand : Brand) (price : ℚ)
    (stock : Nat) (freshId : Nat) (now : Nat) : Inventory × List Out :=
  ({ products := insertProduct inv.products
      { id := freshId, name := name, brand := brand, price := price,
        stock := stock, updated_at := now } },
   [])

/-- The effect of `Inventory::update` on the underlying map: `get_mut(&id)`
finds the entry with the given key (the first occurrence in the list model)
and overwrites its `name`, `brand`, `price`, `stock` and `updated_at` in
place; when no entry has the key, nothing changes. -/
def updateProduct (id : Nat) (new_data : ProductDto) (now : Nat) :
    List Product → List Product
  | [] => []
  | p :: rest =>
    if p.id = id then
      { p with name := new_data.name, brand := new_data.brand,
               price := new_data.price, stock := new_data.stock,
               updated_at := now } :: rest
    else p :: updateProduct id new_data now rest

/-- `Inventory::update` (lines 211-223): `if let Some(product) =
self.products.get_mut(&id)` overwrite the four fields and refresh
`updated_at` with the injected clock value `now`; otherwise do nothing. The
method prints nothing and returns `()` on both paths: the second component
(the printed lines) is empty. -/
def Inventory.update (inv : Inventory) (id : Nat) (new_data : ProductDto) (now : Nat) :
    Inventory × List Out :=
  ({ products := updateProduct id new_data now inv.products }, [])

/-- The effect of `HashMap::remove(&id)`: the removed entry (if the key was
present) and the remaining entries. -/
def removeProduct (id : Nat) : List Product → Option Product × List Product
  | [] => (none, [])
  | p :: rest =>
    if p.id = id then (some p, rest)
    else ((removeProduct id rest).1, p :: (removeProduct id rest).2)

/-- `Inventory::delete` (lines 225-233): remove the entry if present; print
`"Product with ID {} deleted."` when `remove` returned `Some`, otherwise
`"Product not found."`. -/
def Inventory.delete (inv : Inventory) (id : Nat) : Inventory × Out :=
  match removeProduct id inv.products with
  | (some _, rest) => ({ products := rest }, Out.deletedLine id)
  | (none, rest) => ({ products := rest }, Out.productNotFoundLine)

/-- The seeded product built in `main` (lines 13-20): name `"Phone S"`,
brand `Samsung`, price `1000.5`, stock `10`, with the injected id and
timestamp. -/
def firstProduct (freshId : Nat) (now : Nat) : Product :=
  { id := freshId, name := "Phone S", brand := Brand.Samsung,
    price := (1000.5 : ℚ), stock := 10, updated_at := now }

/-- The store state `main` builds before entering the menu loop (lines
11-22): a fresh empty inventory into whose `products` map the seeded product
is inserted directly (`inventory.products.insert(first_product.id,
first_product)`), without going through `Inventory::create`. -/
def mainInit (freshId : Nat) (now : Nat) : Inventory :=
  { products := insertProduct Inventory.new.products (firstProduct freshId now) }

/-! ## Concrete sample data used by witnesses and counterexamples -/

/-- A sample product (the seeded product of `main`, with id token `1`). -/
def sampleA : Product :=
  { id := 1, name := "Phone S", brand := Brand.Samsung, price := (1000.5 : ℚ),
    stock := 10, updated_at := 0 }

/-- A second sample product with id token `2`. -/
def sampleB : Product :=
  { id := 2, name := "Pixel", brand := Brand.Google, price := (499 : ℚ),
    stock := 3, updated_at := 0 }

/-- A sample two-product store. -/
def sampleInv : Inventory :=
  { products := [sampleA, sampleB] }

/-- A sample update request (the one from spec §8). -/
def sampleDto : ProductDto :=
  { name := "X", brand := Brand.Apple, price := (5 : ℚ), stock := 1 }

/-! ## Helper lemmas about the map model -/

theorem updateProduct_id_not_mem (id : Nat) (dto : ProductDto) (now : Nat)
    (l : List Product) (h : ∀ q ∈ l, q.id ≠ id) :
    updateProduct id dto now l = l := by
  induction l with
  | nil => rfl
  | cons p rest ih =>
    have hp : p.id ≠ id := h p (List.mem_cons_self p rest)
    simp only [updateProduct, if_neg hp]
    rw [ih fun q hq => h q (List.mem_cons_of_mem p hq)]

theorem updateProduct_append_first (id : Nat) (dto : ProductDto) (now : Nat)
    (l₁ l₂ : List Product) (p : Product)
    (h : ∀ q ∈ l₁, q.id ≠ id) (hp : p.id = id) :
    updateProduct id dto now (l₁ ++ p :: l₂) =
      l₁ ++ { p with name := dto.name, brand := dto.brand, price := dto.price,
                     stock := dto.stock, updated_at := now } :: l₂ := by
  induction l₁ with
  | nil => simp [updateProduct, hp]
  | cons q rest ih =>
    have hq : q.id ≠ id := h q (List.mem_cons_self q rest)
    simp only [List.cons_append, updateProduct, if_neg hq, List.append_eq]
    rw [ih fun r hr => h r (List.mem_cons_of_mem q hr)]

theorem updateProduct_map_id (id : Nat) (dto : ProductDto) (now : Nat)
    (l : List Product) :
    (updateProduct id dto now l).map Product.id = l.map Product.id := by
  induction l with
  | nil => rfl
  | cons p rest ih =>
    by_cases hp : p.id = id
    · simp [updateProduct, hp]
    · simp [updateProduct, hp, ih]

theorem insertProduct_not_mem (l : List Product) (p : Product)
    (h : p.id ∉ l.map Product.id) :
    insertProduct l p = l ++ [p] := by
  induction l with
  | nil => rfl
  | cons q rest ih =>
    have hq : q.id ≠ p.id := fun hqp => h (by simp [hqp])
    simp only [insertProduct, if_neg hq, List.cons_append]
    rw [ih fun hm => h (List.mem_cons_of_mem _ hm)]

theorem removeProduct_not_mem (id : Nat) (l : List Product)
    (h : ∀ q ∈ l, q.id ≠ id) :
    removeProduct id l = (none, l) := by
  induction l with
  | nil => rfl
  | cons p rest ih =>
    have hp : p.id ≠ id := h p (List.mem_cons_self p rest)
    simp only [removeProduct, if_neg hp]
    rw [ih fun q hq => h q (List.mem_cons_of_mem p hq)]

theorem removeProduct_append_first (id : Nat) (l₁ l₂ : List Product) (p : Product)
    (h : ∀ q ∈ l₁, q.id ≠ id) (hp : p.id = id) :
    removeProduct id (l₁ ++ p :: l₂) = (some p, l₁ ++ l₂) := by
  induction l₁ with
  | nil => simp [removeProduct, hp]
  | cons q rest ih =>
    have hq : q.id ≠ id := h q (List.mem_cons_self q rest)
    simp only [List.cons_append, removeProduct, if_neg hq, List.append_eq]
    rw [ih fun r hr => h r (List.mem_cons_of_mem q hr)]

theorem removeProduct_snd_sublist (id : Nat) (l : List Product) :
    (removeProduct id l).2.Sublist l := by
  induction l with
  | nil => simp [removeProduct]
  | cons p rest ih =>
    by_cases hp : p.id = id
    · simp [removeProduct, hp]
    · simpa [removeProduct, hp] using ih.cons₂ p

theorem exists_first_with_id (l : List Product) (id : Nat)
    (h : id ∈ l.map Product.id) :
    ∃ l₁ p l₂, l = l₁ ++ p :: l₂ ∧ p.id = id ∧ ∀ q ∈ l₁, q.id ≠ id := by
  induction l with
  | nil => simp at h
  | cons p rest ih =>
    by_cases hp : p.id = id
    · exact ⟨[], p, rest, rfl, hp, by simp⟩
    · have hrest : id ∈ rest.map Product.id := by
        rcases List.mem_map.mp h with ⟨q, hq, hqid⟩
        rcases List.mem_cons.mp hq with hq1 | hq2
        · exact absurd (hq1 ▸ hqid) hp
        · exact List.mem_map.mpr ⟨q, hq2, hqid⟩
      rcases ih hrest with ⟨l₁, r, l₂, hsplit, hrid, hfirst⟩
      refine ⟨p :: l₁, r, l₂, by rw [hsplit, List.cons_append], hrid, ?_⟩
      intro q hq
      rcases List.mem_cons.mp hq with hq1 | hq2
      · exact hq1 ▸ hp
      · exact hfirst q hq2

theorem seeAllLines_filterMap (c : Nat) (l : List Product) :
    (seeAllLines c l).filterMap Out.shown = l := by
  induction l generalizing c with
  | nil => rfl
  | cons p rest ih => simp [seeAllLines, Out.shown, ih]

theorem noProducts_not_mem_seeAllLines (c : Nat) (l : List Product) :
    Out.noProducts ∉ seeAllLines c l := by
  induction l generalizing c with
  | nil => simp [seeAllLines]
  | cons p rest ih => simp [seeAllLines, ih]

theorem chContains_nil (hay : List Char) : chContains [] hay = true := by
  induction hay with
  | nil => rfl
  | cons c rest ih => simp [chContains, chPrefix, ih]

theorem strContains_empty_query (s : String) : strContains s "" = true := by
  simpa [strContains] using chContains_nil (s.toList.map Char.toLower)

theorem find?_first (pred : Product → Bool) (l₁ l₂ : List Product) (p : Product)
    (hmiss : ∀ q ∈ l₁, pred q = false) (hhit : pred p = true) :
    (l₁ ++ p :: l₂).find? pred = some p := by
  induction l₁ with
  | nil => simp [List.find?, hhit]
  | cons q rest ih =>
    have hq : pred q = false := hmiss q (List.mem_cons_self q rest)
    simp [List.find?, hq, ih fun r hr => hmiss r (List.mem_cons_of_mem q hr)]

/-! ## Claim theorems -/

/-- C1: for every store state and every id not present in the store,
`update(id, request)` is a silent no-op that succeeds: it prints nothing (no
error is raised and no indication reaches the caller) and the resulting
store — every product, and hence the set of ids — is exactly the original
one. -/
theorem update_missing_id_silent_noop (inv : Inventory) (id : Nat)
    (new_data : ProductDto) (now : Nat) (h : id ∉ inv.ids) :
    inv.update id new_data now = (inv, ([] : List Out)) := by
  have hall : ∀ q ∈ inv.products, q.id ≠ id := fun q hq hqe =>
    h (List.mem_map.mpr ⟨q, hq, hqe⟩)
  simp [Inventory.update, updateProduct_id_not_mem id new_data now inv.products hall]

/-- Witness for C1: id `99` is absent from the sample store, and updating it
returns the store unchanged with no output. -/
theorem update_missing_id_silent_noop_witness :
    (99 ∉ sampleInv.ids) ∧ sampleInv.update 99 sampleDto 5 = (sampleInv, ([] : List Out)) :=
  ⟨by decide, update_missing_id_silent_noop sampleInv 99 sampleDto 5 (by decide)⟩

/-- C2 counterexample: the claim says `update` on an existing id "returns
success/the updated product", but `Inventory::update` returns `()` and
prints nothing on every path. At the concrete store `sampleInv`, id `1` is
present, yet the operation's observable output is empty — identical to the
output of updating the absent id `99` — so no success indication or updated
product reaches the caller. -/
theorem update_returns_no_indication :
    1 ∈ sampleInv.ids ∧
    (sampleInv.update 1 sampleDto 9).2 = ([] : List Out) ∧
    (sampleInv.update 1 sampleDto 9).2 = (sampleInv.update 99 sampleDto 9).2 :=
  ⟨by decide, rfl, rfl⟩

/-- C2 (amended): for every store state and every id present in the store
(`p` is the entry with that id, `l₁`/`l₂` the entries around it),
`update(id, request)` overwrites exactly that product's name, brand, price
and stock with the request's values and refreshes its `updated_at` with the
injected clock value, keeps that product's id, leaves every other product
unchanged, and returns nothing to the caller (no output, unit return). -/
theorem update_existing_overwrites (inv : Inventory) (id : Nat) (new_data : ProductDto)
    (now : Nat) (l₁ l₂ : List Product) (p : Product)
    (hsplit : inv.products = l₁ ++ p :: l₂) (hpid : p.id = id)
    (hfirst : ∀ q ∈ l₁, q.id ≠ id) :
    (inv.update id new_data now).1.products =
      l₁ ++ { p with name := new_data.name, brand := new_data.brand,
                     price := new_data.price, stock := new_data.stock,
                     updated_at := now } :: l₂ ∧
    ({ p with name := new_data.name, brand := new_data.brand,
              price := new_data.price, stock := new_data.stock,
              updated_at := now } : Product).id = p.id ∧
    (inv.update id new_data now).2 = ([] : List Out) := by
  refine ⟨?_, rfl, rfl⟩
  simp only [Inventory.update]
  rw [hsplit, updateProduct_append_first id new_data now l₁ l₂ p hfirst hpid]

/-- Witness for the amended C2: updating id `1` in the sample store replaces
exactly the first product's four fields and timestamp, keeps its id, leaves
the second product alone, and produces no output. -/
theorem update_existing_overwrites_witness :
    (sampleInv.products = [] ++ sampleA :: [sampleB]) ∧
    ((sampleInv.update 1 sampleDto 9).1.products =
      [] ++ { sampleA with name := sampleDto.name, brand := sampleDto.brand,
                           price := sampleDto.price, stock := sampleDto.stock,
                           updated_at := 9 } :: [sampleB] ∧
     ({ sampleA with name := sampleDto.name, brand := sampleDto.brand,
                     price := sampleDto.price, stock := sampleDto.stock,
                     updated_at := 9 } : Product).id = sampleA.id ∧
     (sampleInv.update 1 sampleDto 9).2 = ([] : List Out)) :=
  ⟨rfl, update_existing_overwrites sampleInv 1 sampleDto 9 [] [sampleB] sampleA rfl rfl
    (by simp)⟩

/-- C3: for every store state and query, `search_by_name` matches by
case-insensitive substring containment (`strContains` lowercases both the
stored name and the query). On a non-empty store it prints the first
matching product in iteration order; when no product matches it prints a
not-found line for the query. Every path prints exactly one line, so at
most one match is ever reported, even when several products match. -/
theorem search_first_match_case_insensitive (inv : Inventory) (query : String)
    (hne : inv.products ≠ []) :
    (∀ l₁ p l₂, inv.products = l₁ ++ p :: l₂ →
        (∀ q ∈ l₁, strContains q.name query = false) →
        strContains p.name query = true →
        inv.search_by_name query = Out.foundLine p.id p.name p.brand) ∧
    ((∀ p ∈ inv.products, strContains p.name query = false) →
        inv.search_by_name query = Out.notFoundLine query) := by
  have hempty : inv.products.isEmpty = false := by
    cases hl : inv.products with
    | nil => exact absurd hl hne
    | cons a t => rfl
  constructor
  · intro l₁ p l₂ hsplit hmiss hhit
    have hfind : inv.products.find? (fun item => strContains item.name query) = some p := by
      rw [hsplit]
      exact find?_first _ l₁ l₂ p hmiss hhit
    simp [Inventory.search_by_name, hempty, hfind]
  · intro hall
    have hfind : inv.products.find? (fun item => strContains item.name query) = none :=
      List.find?_eq_none.mpr fun x hx => by simp [hall x hx]
    simp [Inventory.search_by_name, hempty, hfind]

/-- Witness for C3: in the sample store, searching `"phone"` finds the
product named `"Phone S"` (case-insensitively, first in iteration order),
and searching `"xyz"` reports not-found. -/
theorem search_first_match_case_insensitive_witness :
    sampleInv.products ≠ [] ∧
    sampleInv.search_by_name "phone" = Out.foundLine sampleA.id sampleA.name sampleA.brand ∧
    sampleInv.search_by_name "xyz" = Out.notFoundLine "xyz" :=
  ⟨by decide,
   (search_first_match_case_insensitive sampleInv "phone" (by decide)).1
     [] sampleA [sampleB] rfl (by simp) (by decide),
   (search_first_match_case_insensitive sampleInv "xyz" (by decide)).2 (by decide)⟩

/-- C4: `delete(id)` removes the entry with that id if present and its
printed line tells the caller whether a deletion occurred. Deleting an
absent id leaves the store unchanged and reports not-found; deleting a
present id (`p` at first position with that key) removes exactly that one
entry and reports success, and deleting the same id again (ids being
distinct, as they are under a map) reports not-found and leaves the store
unchanged. -/
theorem delete_reports_and_removes (inv : Inventory) (id : Nat) :
    (id ∉ inv.ids → inv.delete id = (inv, Out.productNotFoundLine)) ∧
    (∀ l₁ p l₂, inv.products = l₁ ++ p :: l₂ → p.id = id → (∀ q ∈ l₁, q.id ≠ id) →
      inv.delete id = ({ products := l₁ ++ l₂ }, Out.deletedLine id) ∧
      (inv.ids.Nodup →
        ({ products := l₁ ++ l₂ } : Inventory).delete id =
          ({ products := l₁ ++ l₂ }, Out.productNotFoundLine))) := by
  constructor
  · intro h
    have hall : ∀ q ∈ inv.products, q.id ≠ id := fun q hq hqe =>
      h (List.mem_map.mpr ⟨q, hq, hqe⟩)
    simp [Inventory.delete, removeProduct_not_mem id inv.products hall]
  · intro l₁ p l₂ hsplit hpid hfirst
    refine ⟨?_, ?_⟩
    · simp [Inventory.delete, hsplit, removeProduct_append_first id l₁ l₂ p hfirst hpid]
    · intro hnodup
      have hids : inv.ids = l₁.map Product.id ++ p.id :: l₂.map Product.id := by
        simp [Inventory.ids, hsplit]
      rw [hids] at hnodup
      have hnotin : p.id ∉ l₁.map Product.id ++ l₂.map Product.id :=
        (List.nodup_cons.mp (List.nodup_middle.mp hnodup)).1
      have hall : ∀ q ∈ l₁ ++ l₂, q.id ≠ id := by
        intro q hq hqe
        apply hnotin
        rw [← List.map_append]
        exact List.mem_map.mpr ⟨q, hq, hqe.trans hpid.symm⟩
      simp [Inventory.delete, removeProduct_not_mem id (l₁ ++ l₂) hall]

/-- Witness for C4: deleting id `1` from the sample store removes exactly
the first product and reports success; deleting id `1` again reports
not-found and changes nothing; deleting the absent id `99` reports
not-found with the store unchanged. -/
theorem delete_reports_and_removes_witness :
    sampleInv.delete 1 = ({ products := [sampleB] }, Out.deletedLine 1) ∧
    ({ products := [sampleB] } : Inventory).delete 1 =
      ({ products := [sampleB] }, Out.productNotFoundLine) ∧
    (99 ∉ sampleInv.ids) ∧
    sampleInv.delete 99 = (sampleInv, Out.productNotFoundLine) := by
  have h := (delete_reports_and_removes sampleInv 1).2 [] sampleA [sampleB] rfl rfl (by simp)
  exact ⟨h.1, h.2 (by decide), by decide, (delete_reports_and_removes sampleInv 99).1 (by decide)⟩

/-- C5 counterexample: the claim says `create` "returns the new Product
including its id to the caller", but `Inventory::create` returns `()` and
prints nothing. At the concrete input below the product is inserted, yet
the operation's observable output is empty: the generated id (`5`) never
flows back to the caller. -/
theorem create_returns_no_product :
    (Inventory.new.create "Phone S" Brand.Samsung (1000.5 : ℚ) 10 5 7).2 = ([] : List Out) ∧
    (Inventory.new.create "Phone S" Brand.Samsung (1000.5 : ℚ) 10 5 7).1.products =
      [{ id := 5, name := "Phone S", brand := Brand.Samsung, price := (1000.5 : ℚ),
         stock := 10, updated_at := 7 }] :=
  ⟨rfl, rfl⟩

/-- C5 (amended): for every store state and validated inputs (non-empty
name, price > 0, stock ≥ 0, brand one of the closed `Brand` set by type),
`create` constructs a `Product` with exactly those field values, the
injected freshly generated id and the injected current timestamp, and
inserts it into the store (at the end of the iteration order); the
operation returns nothing to the caller — no output carries the new
product or its id. -/
theorem create_inserts_exact_product (inv : Inventory) (name : String) (brand : Brand)
    (price : ℚ) (stock : Nat) (freshId now : Nat)
    (hname : name ≠ "") (hprice : 0 < price) (hstock : 0 ≤ stock)
    (hfresh : freshId ∉ inv.ids) :
    (inv.create name brand price stock freshId now).1.products =
      inv.products ++ [{ id := freshId, name := name, brand := brand, price := price,
                         stock := stock, updated_at := now }] ∧
    (inv.create name brand price stock freshId now).2 = ([] : List Out) := by
  refine ⟨?_, rfl⟩
  simp only [Inventory.create]
  exact insertProduct_not_mem inv.products _ hfresh

/-- Witness for the amended C5: creating "Phone S" (Samsung, 1000.5, stock
10) with fresh id `3` appends exactly that product to the sample store and
produces no output. -/
theorem create_inserts_exact_product_witness :
    ("Phone S" ≠ "") ∧ ((0 : ℚ) < 1000.5) ∧ (3 ∉ sampleInv.ids) ∧
    ((sampleInv.create "Phone S" Brand.Samsung (1000.5 : ℚ) 10 3 7).1.products =
      sampleInv.products ++ [{ id := 3, name := "Phone S", brand := Brand.Samsung,
                               price := (1000.5 : ℚ), stock := 10, updated_at := 7 }] ∧
     (sampleInv.create "Phone S" Brand.Samsung (1000.5 : ℚ) 10 3 7).2 = ([] : List Out)) :=
  ⟨by decide, by norm_num, by decide,
   create_inserts_exact_product sampleInv "Phone S" Brand.Samsung (1000.5 : ℚ) 10 3 7
     (by decide) (by norm_num) (Nat.zero_le _) (by decide)⟩

/-- Helper: the store left by `delete` is the second component of
`removeProduct`, whichever branch the match takes. -/
theorem delete_fst_products (inv : Inventory) (id : Nat) :
    ((inv.delete id).1).products = (removeProduct id inv.products).2 := by
  cases h : removeProduct id inv.products with
  | mk r rest => cases r <;> simp [Inventory.delete, h]

/-- C6: given that the injected generator yields an id not present in the
store (`h1`, and `h2` for the next create), `create` puts exactly that new
id into the store, two sequential creates never produce colliding ids, and
the key-uniqueness invariant (no duplicate ids) is preserved by every
operation: `create` keeps the id list duplicate-free, `update` leaves the
id list exactly unchanged (ids are never reassigned), and `delete` only
removes ids. -/
theorem ids_unique_invariant (inv : Inventory) (new_data : ProductDto)
    (n1 : String) (b1 : Brand) (pr1 : ℚ) (s1 : Nat)
    (id1 id2 uid did t1 t2 : Nat)
    (hnodup : inv.ids.Nodup)
    (h1 : id1 ∉ inv.ids)
    (h2 : id2 ∉ ((inv.create n1 b1 pr1 s1 id1 t1).1).ids) :
    id1 ∈ ((inv.create n1 b1 pr1 s1 id1 t1).1).ids ∧
    id1 ≠ id2 ∧
    ((inv.create n1 b1 pr1 s1 id1 t1).1).ids.Nodup ∧
    ((inv.update uid new_data t2).1).ids = inv.ids ∧
    ((inv.delete did).1).ids.Nodup := by
  have hc : ((inv.create n1 b1 pr1 s1 id1 t1).1).products =
      inv.products ++ [{ id := id1, name := n1, brand := b1, price := pr1,
                         stock := s1, updated_at := t1 }] := by
    simpa only [Inventory.create] using insertProduct_not_mem inv.products _ h1
  have hcids : ((inv.create n1 b1 pr1 s1 id1 t1).1).ids = inv.ids ++ [id1] := by
    simp [Inventory.ids, hc]
  have hmem : id1 ∈ ((inv.create n1 b1 pr1 s1 id1 t1).1).ids := by
    rw [hcids]; simp
  refine ⟨hmem, fun he => h2 (he ▸ hmem), ?_, ?_, ?_⟩
  · rw [hcids]
    simp [List.nodup_append, hnodup, h1]
  · simp [Inventory.update, Inventory.ids, updateProduct_map_id]
  · have hsub : (((inv.delete did).1).ids).Sublist inv.ids := by
      rw [Inventory.ids, Inventory.ids, delete_fst_products]
      exact (removeProduct_snd_sublist did inv.products).map Product.id
    exact List.Nodup.sublist hsub hnodup

/-- Witness for C6: in the sample store (ids 1, 2), creating with fresh id
3 and then intending fresh id 4 collides with nothing; update of id 1 keeps
the id list, and delete of id 2 keeps it duplicate-free. -/
theorem ids_unique_invariant_witness :
    sampleInv.ids.Nodup ∧ (3 ∉ sampleInv.ids) ∧
    (4 ∉ ((sampleInv.create "N" Brand.Apple (5 : ℚ) 1 3 7).1).ids) ∧
    (3 ∈ ((sampleInv.create "N" Brand.Apple (5 : ℚ) 1 3 7).1).ids ∧
     (3 : Nat) ≠ 4 ∧
     ((sampleInv.create "N" Brand.Apple (5 : ℚ) 1 3 7).1).ids.Nodup ∧
     ((sampleInv.update 1 sampleDto 9).1).ids = sampleInv.ids ∧
     ((sampleInv.delete 2).1).ids.Nodup) :=
  ⟨by decide, by decide, by decide,
   ids_unique_invariant sampleInv sampleDto "N" Brand.Apple (5 : ℚ) 1 3 4 1 2 7 9
     (by decide) (by decide) (by decide)⟩

/-- C7: every store operation is a total function of the store and its
(injected) inputs: for all arguments each operation reduces to one of its
explicitly enumerated results — `see_all` to the empty signal or the
listing, `search_by_name` to the empty signal, a found line for a stored
product, or a not-found line, `create` and `update` to a new store with no
output, and `delete` to a deleted or not-found report. No case is missing
and no panic/exception value exists in any codomain. -/
theorem operations_total (inv : Inventory) (query n : String) (b : Brand) (pr : ℚ)
    (st fid now uid did t : Nat) (dto : ProductDto) :
    (inv.see_all = [Out.noProducts] ∨ inv.see_all = seeAllLines 0 inv.products) ∧
    (inv.search_by_name query = Out.noProducts ∨
      (∃ p, p ∈ inv.products ∧ inv.search_by_name query = Out.foundLine p.id p.name p.brand) ∨
      inv.search_by_name query = Out.notFoundLine query) ∧
    (inv.create n b pr st fid now).2 = ([] : List Out) ∧
    (inv.update uid dto t).2 = ([] : List Out) ∧
    ((inv.delete did).2 = Out.deletedLine did ∨ (inv.delete did).2 = Out.productNotFoundLine) := by
  refine ⟨?_, ?_, rfl, rfl, ?_⟩
  · cases h : inv.products.isEmpty with
    | true => left; simp [Inventory.see_all, h]
    | false => right; simp [Inventory.see_all, h]
  · cases h : inv.products.isEmpty with
    | true => left; simp [Inventory.search_by_name, h]
    | false =>
      cases hf : inv.products.find? (fun item => strContains item.name query) with
      | none => right; right; simp [Inventory.search_by_name, h, hf]
      | some p =>
        right; left
        exact ⟨p, List.mem_of_find?_eq_some hf, by simp [Inventory.search_by_name, h, hf]⟩
  · cases hr : removeProduct did inv.products with
    | mk r rest => cases r <;> simp [Inventory.delete, hr]

/-- C8 counterexample: the claim says that before any create operation has
been performed the store contains no products, but `main` (lines 13-22)
builds the seeded "Phone S" product and inserts it directly into the
`products` map — never calling `Inventory::create` — before the menu loop
starts. With injected id `0` and timestamp `0`, the pre-loop store already
holds that product. -/
theorem store_seeded_before_any_create :
    (mainInit 0 0).products = [firstProduct 0 0] ∧ (mainInit 0 0).products ≠ [] :=
  ⟨rfl, by decide⟩

/-- C8 (amended): `Inventory::new` does create an empty store, but before
any create operation `main` seeds exactly one product ("Phone S", Samsung,
price 1000.5, stock 10) by inserting it directly into the products map,
bypassing `create`; so the store the menu loop starts from is not empty.
Within the loop, entries are added by create, mutated by update, and
removed by delete. -/
theorem new_empty_but_main_seeds (freshId now : Nat) :
    Inventory.new.products = [] ∧
    (mainInit freshId now).products = [firstProduct freshId now] ∧
    firstProduct freshId now =
      { id := freshId, name := "Phone S", brand := Brand.Samsung,
        price := (1000.5 : ℚ), stock := 10, updated_at := now } :=
  ⟨rfl, rfl, rfl⟩

/-- C9: on an empty store `see_all` prints the explicit "No products"
signal (a non-empty output distinct from any listing); on a non-empty
store it prints exactly the listing lines: projecting the displayed
products out of the output yields every stored product exactly once, in
order, and the empty signal never appears. `see_all` takes the store
immutably and returns only output, so the store is unaffected. -/
theorem see_all_empty_signal (inv : Inventory) :
    (inv.products = [] → inv.see_all = [Out.noProducts]) ∧
    (inv.products ≠ [] →
      inv.see_all = seeAllLines 0 inv.products ∧
      inv.see_all.filterMap Out.shown = inv.products ∧
      Out.noProducts ∉ inv.see_all) := by
  constructor
  · intro h
    simp [Inventory.see_all, h]
  · intro h
    have hempty : inv.products.isEmpty = false := by
      cases hl : inv.products with
      | nil => exact absurd hl h
      | cons a t => rfl
    have h1 : inv.see_all = seeAllLines 0 inv.products := by
      simp [Inventory.see_all, hempty]
    refine ⟨h1, ?_, ?_⟩
    · rw [h1, seeAllLines_filterMap]
    · rw [h1]
      exact noProducts_not_mem_seeAllLines 0 inv.products

/-- Witness for C9: the empty store lists as the "No products" signal; the
sample store lists both its products exactly once with no empty signal. -/
theorem see_all_empty_signal_witness :
    Inventory.new.see_all = [Out.noProducts] ∧
    (sampleInv.see_all = seeAllLines 0 sampleInv.products ∧
     sampleInv.see_all.filterMap Out.shown = sampleInv.products ∧
     Out.noProducts ∉ sampleInv.see_all) :=
  ⟨(see_all_empty_signal Inventory.new).1 rfl,
   (see_all_empty_signal sampleInv).2 (by decide)⟩

/-- C10: on a non-empty store, searching with the empty query reports the
first product in iteration order as a match, because after lowercasing
every name contains the empty string as a substring; on an empty store the
search reports the empty-store signal, not a query-specific not-found
line. -/
theorem search_empty_query_matches_first (inv : Inventory) (query : String) :
    (∀ p rest, inv.products = p :: rest →
      inv.search_by_name "" = Out.foundLine p.id p.name p.brand) ∧
    (inv.products = [] → inv.search_by_name query = Out.noProducts) := by
  constructor
  · intro p rest hsplit
    have hempty : inv.products.isEmpty = false := by rw [hsplit]; rfl
    have hfind : inv.products.find? (fun item => strContains item.name "") = some p := by
      rw [hsplit]
      simp [List.find?, strContains_empty_query]
    simp [Inventory.search_by_name, hempty, hfind]
  · intro h
    simp [Inventory.search_by_name, h]

/-- Witness for C10: the empty query matches the first sample product, and
on the empty store the search reports the empty-store signal. -/
theorem search_empty_query_matches_first_witness :
    sampleInv.search_by_name "" = Out.foundLine sampleA.id sampleA.name sampleA.brand ∧
    Inventory.new.search_by_name "zzz" = Out.noProducts :=
  ⟨(search_empty_query_matches_first sampleInv "").1 sampleA [sampleB] rfl,
   (search_empty_query_matches_first Inventory.new "zzz").2 rfl⟩

end Inv
